import Mathlib

/-!
Verification of the manifest-decoding and identity-resolution subsystem of the
cve_binary_analyzer application (cve_bin_tool: `sbom_manager/__init__.py`,
`parsers/javascript.py`, `parsers/python.py`).

Python strings are embedded as `List Char`; Python `str.split(sep)` becomes
`pySplit`; Python `None`-able values become `Option`; a Python exception that a
function may raise becomes an `Option`/`Except` failure.  The external CVE
database (`cvedb.get_vendor_product_pairs`, the spec's IdentityIndex) is an
explicit parameter `lookup : Str -> List Str` giving, for a product name, the
list of the vendors of the matching vendor/product pairs (empty when unknown).
-/

/-- Python strings, embedded as lists of characters. -/
abbrev Str := List Char

/-- Python `s.split(sep)` for a one-character separator: `pySplit c []` is
`[[]]` (Python `"".split(sep) == [""]`), and each occurrence of the separator
starts a new chunk. -/
def pySplit (sep : Char) : Str → List Str
  | [] => [[]]
  | c :: cs =>
    match pySplit sep cs with
    | [] => if c = sep then [[], []] else [[c]]
    | h :: t => if c = sep then [] :: h :: t else (c :: h) :: t

/-- Python truthiness conversion `x or None` for a string `x`: an empty string
becomes `None`. -/
def orNone (s : Str) : Option Str :=
  if s = [] then none else some s

/-- Python truthiness of an `Option Str` (`not version` is true exactly on
`None` and on the empty string). -/
def pyFalsy : Option Str → Bool
  | none => true
  | some s => s = []

/-- Python `str.lower()` on one character (ASCII, as used by the sources). -/
def pyLowerChar (c : Char) : Char :=
  if 'A' ≤ c ∧ c ≤ 'Z' then Char.ofNat (c.toNat + 32) else c

/-- Python `str.lower()`. -/
def pyLower (s : Str) : Str := s.map pyLowerChar

/-- The identity record `ProductInfo(vendor, product, version)`
(`cve_bin_tool.util.ProductInfo`): an immutable vendor/product/version triple. -/
structure ProductInfo where
  vendor : Str
  product : Str
  version : Str
deriving DecidableEq, Repr

/-- `SBOMManager.get_vendor` (sbom_manager/__init__.py lines 157-180): all
vendors paired with the product in the database, or the literal sentinel
`"UNKNOWN"` when the database has no pair for it. -/
def get_vendor (lookup : Str → List Str) (product : Str) : List Str :=
  match lookup product with
  | [] => ["UNKNOWN".toList]
  | v :: vs => v :: vs

/-- The tuple of common ecosystem prefixes of `SBOMManager.common_prefix_split`
(lines 64-74). -/
def commonPrefixes : List Str :=
  [("perl-").toList, ("golang-").toList, ("rubygem-").toList, ("python-").toList,
   ("py3-").toList, ("python3-").toList, ("python2-").toList, ("rust-").toList,
   ("nodejs-").toList]

/-- The test `len(v) > 1 or (len(v) == 1 and v[0] != "UNKNOWN")` applied to a
vendor list in `common_prefix_split` (lines 79-82 and 98): a real database hit,
as opposed to the `UNKNOWN` fallback of `get_vendor`. -/
def isRealHit (l : List Str) : Bool :=
  l.length > 1 ∨ (l.length = 1 ∧ l.headD [] ≠ "UNKNOWN".toList)

/-- The hyphen-splitting half of `SBOMManager.common_prefix_split`
(lines 89-101): split the product on `-`, query each segment, and keep the
segments with a real hit, one record per vendor. -/
def hyphenSplitRecords (lookup : Str → List Str) (product version : Str) :
    List ProductInfo :=
  (pySplit '-' product).flatMap (fun sp =>
    let temp := get_vendor lookup sp
    if isRealHit temp then temp.map (fun v => ⟨v, sp, version⟩) else [])

/-- `SBOMManager.common_prefix_split` (lines 59-102): strip the first matching
common prefix and re-query; on a real hit emit one record per vendor for the
stripped name, otherwise fall back to hyphen-splitting.  (Its docstring notes it
is "currently not being used".) -/
def common_prefix_split (lookup : Str → List Str) (product version : Str) :
    List ProductInfo :=
  match commonPrefixes.find? (fun pre => pre.isPrefixOf product) with
  | some pre =>
    let sp := product.drop pre.length
    let vs := get_vendor lookup sp
    if isRealHit vs then vs.map (fun v => ⟨v, sp, version⟩)
    else hyphenSplitRecords lookup product version
  | none => hyphenSplitRecords lookup product version

/-- A module triple `[vendor, product, version]` as built by
`SBOMManager.parse_sbom` (line 261): the vendor may be absent. -/
abbrev SbomModule := Option Str × Str × Str

/-- The module-processing loop of `SBOMManager.scan_file` (lines 132-144):
lower-case the product; with no module vendor emit one record per `get_vendor`
result, otherwise a single record with the module's vendor. -/
def process_modules (lookup : Str → List Str) (modules : List SbomModule) :
    List ProductInfo :=
  modules.flatMap (fun m =>
    let product := pyLower m.2.1
    let version := m.2.2
    match m.1 with
    | none => (get_vendor lookup product).map (fun v => ⟨v, product, version⟩)
    | some v => [⟨v, product, version⟩])

/-- `SBOMManager.decode_cpe22` (lines 301-317): split on `:`, fields 2/3/4 are
vendor/product/version, empty fields become `None`; `none` is the Python
`IndexError` raised when the string splits into fewer than five fields. -/
def decode_cpe22 (cpe22 : Str) : Option (Option Str × Option Str × Option Str) :=
  let cpe := pySplit ':' cpe22
  match cpe[2]?, cpe[3]?, cpe[4]? with
  | some v, some p, some ver => some (orNone v, orNone p, orNone ver)
  | _, _, _ => none

/-- `SBOMManager.decode_cpe23` (lines 319-335): split on `:`, fields 3/4/5 are
vendor/product/version, empty fields become `None`; `none` is the Python
`IndexError` raised when the string splits into fewer than six fields. -/
def decode_cpe23 (cpe23 : Str) : Option (Option Str × Option Str × Option Str) :=
  let cpe := pySplit ':' cpe23
  match cpe[3]?, cpe[4]?, cpe[5]? with
  | some v, some p, some ver => some (orNone v, orNone p, orNone ver)
  | _, _, _ => none

/-! ### A regular-expression engine for `SBOMManager.is_valid_string`

The three patterns of `is_valid_string` (lines 182-204) are embedded as
abstract syntax trees and matched with Brzozowski derivatives.  Match
existence of a backtracking engine on a backreference-free pattern coincides
with language membership, so `re.match(p, s) is not None` is: some prefix of
`s` is in the language of `p` (the patterns are anchored at the start by
`re.match`; only the purl pattern ends in `$`). -/

/-- Regular expressions over characters: empty language, empty string, a
character class, concatenation, alternation, Kleene star. -/
inductive RE where
  | emp : RE
  | eps : RE
  | cls : (Char → Bool) → RE
  | cat : RE → RE → RE
  | alt : RE → RE → RE
  | star : RE → RE

/-- Does the regex accept the empty string? -/
def RE.nullable : RE → Bool
  | .emp => false
  | .eps => true
  | .cls _ => false
  | .cat a b => a.nullable && b.nullable
  | .alt a b => a.nullable || b.nullable
  | .star _ => true

/-- Smart alternation: drops the empty language. -/
def RE.mkAlt : RE → RE → RE
  | .emp, r => r
  | r, .emp => r
  | a, b => .alt a b

/-- Smart concatenation: absorbs the empty language, drops the empty string. -/
def RE.mkCat : RE → RE → RE
  | .emp, _ => .emp
  | _, .emp => .emp
  | .eps, r => r
  | r, .eps => r
  | a, b => .cat a b

/-- Brzozowski derivative of a regex by one character. -/
def RE.deriv : RE → Char → RE
  | .emp, _ => .emp
  | .eps, _ => .emp
  | .cls p, c => if p c then .eps else .emp
  | .cat a b, c =>
    if a.nullable then .mkAlt (.mkCat (a.deriv c) b) (b.deriv c)
    else .mkCat (a.deriv c) b
  | .alt a b, c => .mkAlt (a.deriv c) (b.deriv c)
  | .star a, c => .mkCat (a.deriv c) (.star a)

/-- Whole-string acceptance. -/
def RE.accepts (r : RE) (s : Str) : Bool :=
  (s.foldl RE.deriv r).nullable

/-- `re.match` for a pattern without `$`: some prefix of `s` (from position 0)
is accepted. -/
def RE.matchStart : RE → Str → Bool
  | r, [] => r.nullable
  | r, c :: cs => r.nullable || (r.deriv c).matchStart cs

/-- `re.match` for a pattern ending in `$`: the pattern (without the `$`)
matches the whole string, or the whole string short of one final newline. -/
def RE.matchDollar (r : RE) (s : Str) : Bool :=
  r.accepts s ||
    (match s.getLast? with
     | some c => c = '\n' && r.accepts s.dropLast
     | none => false)

/-- A single literal character. -/
def reChar (c : Char) : RE := .cls (fun d => d = c)

/-- A character class given by a list of characters. -/
def reOf (cs : List Char) : RE := .cls (fun d => cs.contains d)

/-- Concatenation of a list of regexes. -/
def reSeq (l : List RE) : RE := l.foldr RE.cat .eps

/-- The literal string regex. -/
def reStr (s : Str) : RE := reSeq (s.map reChar)

/-- `r{n}`: exactly `n` copies. -/
def reRep (n : Nat) (r : RE) : RE := reSeq (List.replicate n r)

/-- `r?`. -/
def reOpt (r : RE) : RE := .alt r .eps

/-- `r+`. -/
def rePlus (r : RE) : RE := .cat r (.star r)

/-- `r{m,n}`: `m` copies followed by `n - m` optional copies. -/
def reBetween (m n : Nat) (r : RE) : RE :=
  RE.cat (reRep m r) (reRep (n - m) (reOpt r))

/-- The characters allowed after a backslash in the cpe23 pattern's escape
alternative `\\[\\\*\?\!\"#\$%&'\(\)\+,\-\.\/:;<=>@\[\]\^`\{\|}~]`
(line 199; the brace, backtick characters are written by code point). -/
def cpe23EscChars : List Char :=
  ['\\', '*', '?', '!', '"', '#', '$', '%', '&', '\'', '(', ')', '+', ',',
   '-', '.', '/', ':', ';', '<', '=', '>', '@', '[', ']', '^',
   Char.ofNat 96, Char.ofNat 123, '|', Char.ofNat 125, '~']

/-- The cpe23 pattern's plain attribute-value character class
`[a-zA-Z0-9\-\._]`. -/
def cpe23AvChar (c : Char) : Bool :=
  c.isAlphanum || c = '-' || c = '.' || c = '_'

/-- One attribute-value field of the cpe23 pattern:
`(((\?*|\*?)([a-zA-Z0-9\-\._]|(\\[...]))+(\?*|\*?))|[\*\-])`. -/
def cpe23Field : RE :=
  RE.alt
    (reSeq [RE.alt (RE.star (reChar '?')) (reOpt (reChar '*')),
            rePlus (RE.alt (.cls cpe23AvChar) (RE.cat (reChar '\\') (reOf cpe23EscChars))),
            RE.alt (RE.star (reChar '?')) (reOpt (reChar '*'))])
    (reOf ['*', '-'])

/-- The language field of the cpe23 pattern:
`(([a-zA-Z]{2,3}(-([a-zA-Z]{2}|[0-9]{3}))?)|[\*\-])`. -/
def cpe23Lang : RE :=
  RE.alt
    (RE.cat (reBetween 2 3 (.cls Char.isAlpha))
      (reOpt (RE.cat (reChar '-')
        (RE.alt (reRep 2 (.cls Char.isAlpha)) (reRep 3 (.cls Char.isDigit))))))
    (reOf ['*', '-'])

/-- The cpe23 pattern of `is_valid_string` (line 199):
`^cpe:2\.3:[aho\*\-](:field){5}(:lang)(:field){4}` (prefix match, no `$`). -/
def cpe23RE : RE :=
  reSeq [reStr (("cpe:2.3:").toList),
         reOf ['a', 'h', 'o', '*', '-'],
         reRep 5 (RE.cat (reChar ':') cpe23Field),
         RE.cat (reChar ':') cpe23Lang,
         reRep 4 (RE.cat (reChar ':') cpe23Field)]

/-- The cpe22 pattern's field character class `[A-Za-z0-9\._\-~%]`. -/
def cpe22FieldChar (c : Char) : Bool :=
  c.isAlphanum || c = '.' || c = '_' || c = '-' || c = '~' || c = '%'

/-- The cpe22 pattern of `is_valid_string` (line 202):
`^[c][pP][eE]:/[AHOaho]?(:[A-Za-z0-9\._\-~%]*){0,6}` (prefix match, no `$`). -/
def cpe22RE : RE :=
  reSeq [reChar 'c', reOf ['p', 'P'], reOf ['e', 'E'], reChar ':', reChar '/',
         reOpt (reOf ['A', 'H', 'O', 'a', 'h', 'o']),
         reBetween 0 6 (RE.cat (reChar ':') (RE.star (.cls cpe22FieldChar)))]

/-- `.` of the Python patterns: any character but a newline. -/
def reDot : RE := .cls (fun c => ¬ c = '\n')

/-- The purl pattern of `is_valid_string` (line 196):
`^(.+):(.+)/(.+)/(.+)@(.+)\??(.*)#?(.*)$` (the groups are only for capture and
do not affect matching). -/
def purlRE : RE :=
  reSeq [rePlus reDot, reChar ':', rePlus reDot, reChar '/', rePlus reDot,
         reChar '/', rePlus reDot, reChar '@', rePlus reDot,
         reOpt (reChar '?'), RE.star reDot, reOpt (reChar '#'), RE.star reDot]

/-- `SBOMManager.is_valid_string` (lines 182-204): dispatch on the string type
and match the corresponding pattern from the start of the string.  `none` is
the `UnboundLocalError` the source raises on any other `string_type`. -/
def is_valid_string (string_type ref_string : Str) : Option Bool :=
  if string_type = ("purl").toList then some (purlRE.matchDollar ref_string)
  else if string_type = ("cpe23").toList then some (cpe23RE.matchStart ref_string)
  else if string_type = ("cpe22").toList then some (cpe22RE.matchStart ref_string)
  else none

/-! ### Package URL decoding and encoding -/

/-- The first chunk of `pySplit` (the part of the string before its first
separator, or the whole string when there is none). -/
def beforeFirst (sep : Char) (s : Str) : Str :=
  (pySplit sep s).headD []

/-- Split a string at its first occurrence of `sep`: `none` when the separator
does not occur. -/
def splitAtFirst (sep : Char) (s : Str) : Option (Str × Str) :=
  match pySplit sep s with
  | [] => none
  | [_] => none
  | h :: t => some (h, (t.intersperse [sep]).flatten)

/-- The chunk of the string after its last occurrence of `sep`: `none` when the
separator does not occur. -/
def afterLast (sep : Char) (s : Str) : Option Str :=
  match pySplit sep s with
  | [] => none
  | [_] => none
  | l => l.getLast?

/-- Modelled from the spec: `packageurl.PackageURL.from_string` (a third-party
library, outside this repository) applied to the PURL grammar
`scheme:type/namespace/name@version?qualifiers#subpath` of spec section 4.1/6;
returns the `version` component (`none` inside when the string carries no
`@version`), and fails (outer `none`, the library's `ValueError`) when the
scheme is not `pkg` or no `/` separates the type from the name. -/
def purlFromStringVersion (s : Str) : Option (Option Str) :=
  match splitAtFirst ':' s with
  | none => none
  | some (scheme, remainder) =>
    if scheme = ("pkg").toList ∧ remainder.contains '/' then
      let beforeSubpath := beforeFirst '#' remainder
      let beforeQualifiers := beforeFirst '?' beforeSubpath
      some (afterLast '@' beforeQualifiers)
    else none

/-- `SBOMManager.decode_purl` (lines 337-356): vendor and product are set to
`None` outright ("only the version is parsed"); the version comes from the
parsed PURL, with an empty version turned into `None`; the outer `none` is the
`ValueError` of an unparsable PURL. -/
def decode_purl (purl : Str) : Option (Option Str × Option Str × Option Str) :=
  (purlFromStringVersion purl).map (fun ver =>
    (none, none, match ver with | none => none | some v => orNone v))

/-- The character class `[a-zA-Z0-9._-]` kept by the product normalization of
`JavascriptParser.generate_purl` (parsers/javascript.py line 20). -/
def purlProductChar (c : Char) : Bool :=
  c.isAlphanum || c = '.' || c = '_' || c = '-'

/-- The character class `[a-zA-Z0-9.+\-]` kept by the version normalization of
`JavascriptParser.generate_purl` (line 21). -/
def purlVersionChar (c : Char) : Bool :=
  c.isAlphanum || c = '.' || c = '+' || c = '-'

/-- Modelled from the spec: `Parser.generate_purl` (cve_bin_tool/parsers/
`__init__.py`, not under src/), which builds the PURL string for an
already-normalized product and version with the parser's package type; per
spec section 4.1 the vendor is not embedded in the PURL body, giving
`pkg:<type>/<product>@<version>`. -/
def base_generate_purl (pkgType product version : Str) : Str :=
  ("pkg:").toList ++ pkgType ++ ['/'] ++ product ++ ['@'] ++ version

/-- `JavascriptParser.generate_purl` (parsers/javascript.py lines 18-35):
strip the product to `[a-zA-Z0-9._-]` and lower-case it, strip the version to
`[a-zA-Z0-9.+-]`, force the vendor to `"UNKNOWN"` (not embedded), and return
no PURL when either normalized field is empty; the package type is `npm`. -/
def js_generate_purl (product version : Str) : Option Str :=
  let product := (product.filter purlProductChar).map pyLowerChar
  let version := version.filter purlVersionChar
  if product = [] ∨ version = [] then none
  else some (base_generate_purl (("npm").toList) product version)

/-! ### SBOM ingestion (`SBOMManager.parse_sbom`, `SBOMManager.scan_file`) -/

/-- One external reference `[category, type, locator]` of an SBOM package. -/
abbrev ExtRef := Str × Str × Str

/-- The decoded-reference dictionary built by the loop of
`SBOMManager.parse_ext_ref` (lines 282-293); later references of the same type
overwrite earlier ones. -/
structure DecodedRefs where
  cpe23 : Option (Option Str × Option Str × Option Str)
  cpe22 : Option (Option Str × Option Str × Option Str)
  purl : Option (Option Str × Option Str × Option Str)

/-- One iteration of the `parse_ext_ref` loop (lines 283-293): classify the
reference by type, validate it against its grammar, decode it on success and
store it under its type; `none` is an exception escaping from a decoder. -/
def parse_ext_ref_step (d : DecodedRefs) (ref : ExtRef) : Option DecodedRefs :=
  let refType := ref.2.1
  let refString := ref.2.2
  if refType = ("cpe23Type").toList ∧ is_valid_string (("cpe23").toList) refString = some true then
    (decode_cpe23 refString).map (fun t => { d with cpe23 := some t })
  else if refType = ("cpe22Type").toList ∧ is_valid_string (("cpe22").toList) refString = some true then
    (decode_cpe22 refString).map (fun t => { d with cpe22 := some t })
  else if refType = ("purl").toList ∧ is_valid_string (("purl").toList) refString = some true then
    (decode_purl refString).map (fun t => { d with purl := some t })
  else some d

/-- The `parse_ext_ref` loop over the external references (lines 283-293). -/
def parse_ext_ref_go (d : DecodedRefs) : List ExtRef → Option DecodedRefs
  | [] => some d
  | r :: rs => (parse_ext_ref_step d r).bind (fun d2 => parse_ext_ref_go d2 rs)

/-- `SBOMManager.parse_ext_ref` (lines 266-299): decode every reference and
return the CPE 2.3 result, else the CPE 2.2 result, else the PURL result, else
`(None, None, None)`. -/
def parse_ext_ref (ext_ref : List ExtRef) :
    Option (Option Str × Option Str × Option Str) :=
  (parse_ext_ref_go ⟨none, none, none⟩ ext_ref).map (fun d =>
    d.cpe23.getD (d.cpe22.getD (d.purl.getD (none, none, none))))

/-- One SBOM package as delivered by the `lib4sbom` parser to
`SBOMManager.parse_sbom`: a mandatory `name`, an optional `version`, and an
optional `externalreference` list. -/
structure SbomPackage where
  name : Str
  version : Option Str
  externalreference : Option (List ExtRef)

/-- The per-package body of the `parse_sbom` loop (lines 236-261): prefer the
external-reference data, fall back to the package's own name and version
(Python truthiness: an empty decoded name or version also falls back), and
keep the module only when a (truthy) version was found; the outer `none` is an
exception escaping from `parse_ext_ref`. -/
def parse_package (pkg : SbomPackage) : Option (Option SbomModule) :=
  (match pkg.externalreference with
   | some refs => parse_ext_ref refs
   | none => some (none, none, none)).map
    (fun (t : Option Str × Option Str × Option Str) =>
    let vendor := t.1
    let package_name :=
      match t.2.1 with
      | some s => if s = [] then pkg.name else s
      | none => pkg.name
    let version :=
      if pyFalsy t.2.2 ∧ pkg.version.isSome then pkg.version else t.2.2
    match version with
    | some v => if v = [] then none else some (vendor, package_name, v)
    | none => none)

/-- The package loop of `parse_sbom` (lines 236-261), accumulating modules. -/
def parse_sbom_go (acc : List SbomModule) : List SbomPackage → Option (List SbomModule)
  | [] => some acc
  | pkg :: rest =>
    ((parse_package pkg).map (fun m => acc ++ m.toList)).bind
      (fun acc2 => parse_sbom_go acc2 rest)

/-- `SBOMManager.parse_sbom` (lines 206-264) after the file has been loaded:
when validation is on and the file is an XML document, a failed schema
validation returns the empty module list before any package is read; otherwise
every package contributes its module (if any); `none` is an exception escaping
from a package.  `valid_xml` abstracts the external
`validate_spdx`/`validate_cyclonedx` verdict on the file. -/
def parse_sbom_modules (validate isXmlFile valid_xml : Bool)
    (packages : List SbomPackage) : Option (List SbomModule) :=
  if validate ∧ isXmlFile ∧ ¬ valid_xml then some []
  else parse_sbom_go [] packages

/-- The exception classes relevant to `SBOMManager.scan_file` (line 124). -/
inductive PyErr where
  | keyError
  | fileNotFound
  | xmlParseError
  | other
deriving DecidableEq, Repr

/-- `SBOMManager.scan_file` (lines 104-155): an absent file leaves the module
list empty; `KeyError`, `FileNotFoundError` and `ET.ParseError` from the
parse are swallowed, leaving the module list empty; any other exception
propagates.  The modules are then resolved into identity records (the keys of
the returned `sbom_data` mapping).  `parseOutcome` abstracts what
`parse_sbom` (or the SWID parser) does on the file when it exists. -/
def scan_file (lookup : Str → List Str) (fileExists : Bool)
    (parseOutcome : Except PyErr (List SbomModule)) :
    Except PyErr (List ProductInfo) :=
  let modules : Except PyErr (List SbomModule) :=
    if fileExists then
      match parseOutcome with
      | .ok ms => .ok ms
      | .error e =>
        match e with
        | .keyError => .ok []
        | .fileNotFound => .ok []
        | .xmlParseError => .ok []
        | .other => .error .other
    else .ok []
  modules.map (process_modules lookup)

/-! ### The npm lockfile parser (`parsers/javascript.py`) -/

/-- `JavascriptParser.get_package_name` (lines 37-39): the last `/`-delimited
segment of a path-like package identifier. -/
def get_package_name (name : Str) : Str :=
  if name.contains '/' then (pySplit '/' name).getLastD [] else name

/-- A version value as it ends up in `product_version_mapping`: the legacy
branch's `except` arm (line 87) can store a whole dependency-entry dictionary
(when the entry is an object without a `version` field), not just a string. -/
inductive NpmVerVal where
  | str : Str → NpmVerVal
  | dict : List (Str × Str) → NpmVerVal
deriving DecidableEq, Repr

/-- A package entry of the schema-version-2 flat `packages` map: an optional
`version` field and a `requires` map of constraints. -/
structure NpmPackage where
  version : Option Str
  requires : List (Str × Str)
deriving DecidableEq, Repr

/-- A dependency entry of the legacy nested `dependencies` map: either a plain
version string or an object with an optional `version` field and a `requires`
map. -/
inductive NpmDepEntry where
  | str : Str → NpmDepEntry
  | obj : Option Str → List (Str × Str) → NpmDepEntry
deriving DecidableEq, Repr

/-- A `package-lock.json` document, as consumed by
`JavascriptParser.run_checker`: the top-level `name`/`version` fields, the
`lockfileVersion`, and the two alternative dependency maps. -/
structure NpmLockfile where
  name : Option Str
  version : Option Str
  lockfileVersion : Option Nat
  packages : List (Str × NpmPackage)
  dependencies : List (Str × NpmDepEntry)

/-- The schema-version-≥2 branch of `run_checker` (lines 61-71): for each
package, append its own `(product, version)` and every `requires` entry whose
constraint is not the wildcard `*`. -/
def npm_v2_mapping (packages : List (Str × NpmPackage)) :
    List (Str × Option NpmVerVal) :=
  packages.flatMap (fun pd =>
    (get_package_name pd.1, pd.2.version.map NpmVerVal.str) ::
      pd.2.requires.filterMap (fun nv =>
        if nv.2 = ("*").toList then none
        else some (get_package_name nv.1, some (NpmVerVal.str nv.2))))

/-- The legacy-schema branch of `run_checker` (lines 73-95): each entry's
version is the object's `version` field, or (via the `except` arm) the entry
value itself — the plain string, or the whole object dictionary when the
object has no `version` field; `requires` entries other than `*` follow.  On a
plain-string entry the subsequent `.get("requires", {})` attribute access
raises `AttributeError` (a string has no `get`), which escapes `run_checker`:
this is the `.error` outcome. -/
def npm_legacy_mapping (dependencies : List (Str × NpmDepEntry)) :
    Except Unit (List (Str × Option NpmVerVal)) :=
  dependencies.foldlM (fun acc ie => do
    let product := get_package_name ie.1
    let version : NpmVerVal :=
      match ie.2 with
      | .str s => .str s
      | .obj (some v) _ => .str v
      | .obj none requires => .dict requires
    let acc := acc ++ [(product, some version)]
    match ie.2 with
    | .str _ => .error ()
    | .obj _ requires =>
      .ok (acc ++ requires.filterMap (fun nv =>
        if nv.2 = ("*").toList then none
        else some (get_package_name nv.1, some (NpmVerVal.str nv.2))))) []

/-- The `product_version_mapping` construction of `run_checker` (lines 57-95):
nothing when `lockfileVersion` is absent or `0` (falsy), the flat-map branch
when it is `≥ 2`, the legacy branch otherwise. -/
def npm_mapping (data : NpmLockfile) :
    Except Unit (List (Str × Option NpmVerVal)) :=
  if data.lockfileVersion.isSome ∧ data.lockfileVersion ≠ some 0 then
    if 2 ≤ data.lockfileVersion.getD 0 then .ok (npm_v2_mapping data.packages)
    else npm_legacy_mapping data.dependencies
  else .ok []

/-! ### The vendor resolver of the parser family

`Parser.find_vendor` lives in `cve_bin_tool/parsers/__init__.py`, which is not
under src/; it is modelled from the spec (sections 3 and 4.4). -/

/-- Modelled from the spec: the vendor-resolution core of
`Parser.find_vendor`/`VendorResolver.resolve` for a fragment without a vendor
hint (spec section 4.4): one record per vendor on an index hit; otherwise the
prefix-stripping/hyphen-splitting fallback (the behaviour of the source's
`common_prefix_split`); if every fallback fails, a single record with vendor
`UNKNOWN`. -/
def resolveVendors (lookup : Str → List Str) (product version : Str) :
    List ProductInfo :=
  match lookup product with
  | v :: vs => (v :: vs).map (fun w => ⟨w, product, version⟩)
  | [] =>
    match common_prefix_split lookup product version with
    | [] => [⟨("UNKNOWN").toList, product, version⟩]
    | r :: rs => r :: rs

/-- Modelled from the spec: `Parser.find_vendor(product, version)`
(cve_bin_tool/parsers/`__init__.py` is not under src/).  Per the spec's data
invariants (section 3), a fragment whose version is absent, empty, or not a
version string at all (the legacy npm branch can hand over a whole
dictionary) is unresolvable and is dropped silently; otherwise the fragment is
resolved into identity records. -/
def find_vendor (lookup : Str → List Str) (product : Str)
    (version : Option NpmVerVal) : List ProductInfo :=
  match version with
  | some (.str v) => if v = [] then [] else resolveVendors lookup product v
  | _ => []

/-- `JavascriptParser.run_checker` (lines 41-101) end to end: the records for
the top-level `name`/`version` pair are yielded first; then the mapping is
built — if that raises (legacy plain-string entry), nothing further is
yielded and the exception escapes (the Bool is the raised flag); otherwise
every mapping pair is resolved and yielded. -/
def npm_run_checker (lookup : Str → List Str) (data : NpmLockfile) :
    List ProductInfo × Bool :=
  let rootRecords :=
    match data.name, data.version with
    | some n, some v => find_vendor lookup n (some (.str v))
    | _, _ => []
  match npm_mapping data with
  | .error _ => (rootRecords, true)
  | .ok mapping =>
    (rootRecords ++ mapping.flatMap (fun pv => find_vendor lookup pv.1 pv.2), false)

/-! ### The Python metadata parser (`parsers/python.py`) -/

/-- The first line (among the given ones) matched by the MULTILINE pattern
`^<field> (.+)$`, returning the captured group: the line must start with the
literal field prefix and have a non-empty remainder. -/
def searchFieldLines (fieldColon : Str) (lines : List Str) : Option Str :=
  (lines.filterMap (fun l =>
    if fieldColon.isPrefixOf l ∧ l.length > fieldColon.length then
      some (l.drop fieldColon.length)
    else none)).head?

/-- `PythonParser.run_checker` (parsers/python.py lines 139-162): keep the
first three lines of the (string-extracted) file, capture the `Name:` and
`Version:` fields, and on a database hit yield one
`ScanInfo(ProductInfo(vendor, product, version), filename)` per
vendor/product pair; a missing field (`AttributeError`) or an empty pair list
yields nothing.  The string-extraction preprocessing (`parse_strings`, not
under src/) is abstracted by taking the file's lines as input. -/
def python_run_checker (lookup : Str → List Str) (lines : List Str)
    (filename : Str) : List (ProductInfo × Str) :=
  let lines3 := lines.take 3
  match searchFieldLines (("Name: ").toList) lines3,
        searchFieldLines (("Version: ").toList) lines3 with
  | some product, some version =>
    (lookup product).map (fun v => (⟨v, product, version⟩, filename))
  | _, _ => []

/-! ### Lemmas about `pySplit` -/

theorem pySplit_ne_nil (sep : Char) (l : Str) : pySplit sep l ≠ [] := by
  induction l with
  | nil => simp [pySplit]
  | cons c cs ih =>
    rw [pySplit]
    split <;> split <;> simp

theorem pySplit_of_not_mem {sep : Char} {l : Str} (h : sep ∉ l) :
    pySplit sep l = [l] := by
  induction l with
  | nil => rfl
  | cons c cs ih =>
    rw [List.mem_cons, not_or] at h
    rw [pySplit, ih h.2]
    simp [Ne.symm h.1]

theorem pySplit_append {sep : Char} {a : Str} (b : Str) (h : sep ∉ a) :
    pySplit sep (a ++ sep :: b) = a :: pySplit sep b := by
  induction a with
  | nil =>
    obtain ⟨h0, t0, heq⟩ := List.exists_cons_of_ne_nil (pySplit_ne_nil sep b)
    rw [List.nil_append, pySplit, heq]
    simp
  | cons c cs ih =>
    rw [List.mem_cons, not_or] at h
    rw [List.cons_append, pySplit, ih h.2]
    simp [Ne.symm h.1]

/-- C2: `decode_cpe22` takes the colon-split fields 2/3/4 and `decode_cpe23`
the fields 3/4/5 as vendor/product/version, turning empty fields into `None`,
so a logical identity encoded in both CPE formats decodes to the same triple;
in particular the CPE 2.3 string
`cpe:2.3:a:nasm:netwide_assembler:2.15:*:*:*:*:*:*:*` decodes to vendor
`nasm`, product `netwide_assembler`, version `2.15`. -/
theorem cpe_decoders_agree (v p ver : Str)
    (hv : ':' ∉ v) (hp : ':' ∉ p) (hver : ':' ∉ ver) :
    decode_cpe22 (("cpe:/a:").toList ++ v ++ [':'] ++ p ++ [':'] ++ ver)
      = some (orNone v, orNone p, orNone ver) ∧
    decode_cpe23 (("cpe:2.3:a:").toList ++ v ++ [':'] ++ p ++ [':'] ++ ver
        ++ (":*:*:*:*:*:*:*").toList)
      = some (orNone v, orNone p, orNone ver) ∧
    decode_cpe23 (("cpe:2.3:a:nasm:netwide_assembler:2.15:*:*:*:*:*:*:*").toList)
      = some (some (("nasm").toList), some (("netwide_assembler").toList),
              some (("2.15").toList)) := by
  refine ⟨?_, ?_, by decide⟩
  · have harg : ("cpe:/a:").toList ++ v ++ [':'] ++ p ++ [':'] ++ ver
        = ['c', 'p', 'e'] ++ ':' :: (['/', 'a'] ++ ':' :: (v ++ ':' :: (p ++ ':' :: ver))) := by
      simp
    have hsplit : pySplit ':' (['c', 'p', 'e'] ++ ':' :: (['/', 'a'] ++ ':' :: (v ++ ':' :: (p ++ ':' :: ver))))
        = ['c', 'p', 'e'] :: ['/', 'a'] :: v :: p :: [ver] := by
      rw [pySplit_append _ (by decide), pySplit_append _ (by decide),
          pySplit_append _ hv, pySplit_append _ hp, pySplit_of_not_mem hver]
    rw [decode_cpe22, harg, hsplit]
    rfl
  · have harg : ("cpe:2.3:a:").toList ++ v ++ [':'] ++ p ++ [':'] ++ ver
        ++ (":*:*:*:*:*:*:*").toList
        = ['c', 'p', 'e'] ++ ':' :: (['2', '.', '3'] ++ ':' :: (['a'] ++ ':' ::
            (v ++ ':' :: (p ++ ':' :: (ver ++ ':' :: ("*:*:*:*:*:*:*").toList))))) := by
      simp
    have hsplit : pySplit ':' (['c', 'p', 'e'] ++ ':' :: (['2', '.', '3'] ++ ':' :: (['a'] ++ ':' ::
          (v ++ ':' :: (p ++ ':' :: (ver ++ ':' :: ("*:*:*:*:*:*:*").toList))))))
        = ['c', 'p', 'e'] :: ['2', '.', '3'] :: ['a'] :: v :: p :: ver ::
            pySplit ':' (("*:*:*:*:*:*:*").toList) := by
      rw [pySplit_append _ (by decide), pySplit_append _ (by decide),
          pySplit_append _ (by decide), pySplit_append _ hv, pySplit_append _ hp,
          pySplit_append _ hver]
    rw [decode_cpe23, harg, hsplit]
    rfl

/-- Witness for `cpe_decoders_agree` at vendor `nasm`, product
`netwide_assembler`, version `2.15`. -/
theorem cpe_decoders_agree_witness :
    decode_cpe22 (("cpe:/a:").toList ++ ("nasm").toList ++ [':']
        ++ ("netwide_assembler").toList ++ [':'] ++ ("2.15").toList)
      = some (orNone (("nasm").toList), orNone (("netwide_assembler").toList),
              orNone (("2.15").toList)) ∧
    decode_cpe23 (("cpe:2.3:a:").toList ++ ("nasm").toList ++ [':']
        ++ ("netwide_assembler").toList ++ [':'] ++ ("2.15").toList
        ++ (":*:*:*:*:*:*:*").toList)
      = some (orNone (("nasm").toList), orNone (("netwide_assembler").toList),
              orNone (("2.15").toList)) ∧
    decode_cpe23 (("cpe:2.3:a:nasm:netwide_assembler:2.15:*:*:*:*:*:*:*").toList)
      = some (some (("nasm").toList), some (("netwide_assembler").toList),
              some (("2.15").toList)) :=
  cpe_decoders_agree (("nasm").toList) (("netwide_assembler").toList)
    (("2.15").toList) (by decide) (by decide) (by decide)

/-! ### Reduction lemmas for the `parse_ext_ref` loop -/

theorem optionBind_some {α β : Type} (a : α) (f : α → Option β) :
    (some a).bind f = f a := rfl

theorem parse_ext_ref_step_cpe23 (d : DecodedRefs) (cat s : Str)
    (t : Option Str × Option Str × Option Str)
    (hv : is_valid_string (("cpe23").toList) s = some true)
    (hd : decode_cpe23 s = some t) :
    parse_ext_ref_step d (cat, ("cpe23Type").toList, s)
      = some { d with cpe23 := some t } := by
  simp only [parse_ext_ref_step]
  rw [if_pos ⟨trivial, hv⟩, hd]
  rfl

theorem parse_ext_ref_step_cpe22 (d : DecodedRefs) (cat s : Str)
    (t : Option Str × Option Str × Option Str)
    (hv : is_valid_string (("cpe22").toList) s = some true)
    (hd : decode_cpe22 s = some t) :
    parse_ext_ref_step d (cat, ("cpe22Type").toList, s)
      = some { d with cpe22 := some t } := by
  have hne : ¬ (("cpe22Type").toList = ("cpe23Type").toList) := by decide
  simp only [parse_ext_ref_step]
  rw [if_neg (fun h => hne h.1), if_pos ⟨trivial, hv⟩, hd]
  rfl

theorem parse_ext_ref_step_purl (d : DecodedRefs) (cat s : Str)
    (t : Option Str × Option Str × Option Str)
    (hv : is_valid_string (("purl").toList) s = some true)
    (hd : decode_purl s = some t) :
    parse_ext_ref_step d (cat, ("purl").toList, s)
      = some { d with purl := some t } := by
  have hne23 : ¬ (("purl").toList = ("cpe23Type").toList) := by decide
  have hne22 : ¬ (("purl").toList = ("cpe22Type").toList) := by decide
  simp only [parse_ext_ref_step]
  rw [if_neg (fun h => hne23 h.1), if_neg (fun h => hne22 h.1),
      if_pos ⟨trivial, hv⟩, hd]
  rfl

/-- C1: SBOM external-reference resolution follows the strict preference order
CPE 2.3, else CPE 2.2, else PURL, else the package's own declared name and
version: with all three reference kinds present (or the higher-preference ones
absent) the decoded result of the most-preferred valid reference is returned
— in particular a package carrying both a valid CPE23 and a valid PURL
emits the CPE23-derived triple (hence the CPE23-derived version even when the
two versions differ) — and a package with no external reference falls back to
its declared name/version fields. -/
theorem sbom_preference_order (cat1 cat2 cat3 : Str) (s1 s2 s3 : Str)
    (t1 t2 t3 : Option Str × Option Str × Option Str)
    (hv1 : is_valid_string (("cpe23").toList) s1 = some true)
    (hv2 : is_valid_string (("cpe22").toList) s2 = some true)
    (hv3 : is_valid_string (("purl").toList) s3 = some true)
    (hd1 : decode_cpe23 s1 = some t1)
    (hd2 : decode_cpe22 s2 = some t2)
    (hd3 : decode_purl s3 = some t3) :
    parse_ext_ref [(cat1, ("cpe23Type").toList, s1), (cat2, ("cpe22Type").toList, s2),
        (cat3, ("purl").toList, s3)] = some t1 ∧
    parse_ext_ref [(cat1, ("cpe23Type").toList, s1), (cat3, ("purl").toList, s3)]
      = some t1 ∧
    parse_ext_ref [(cat2, ("cpe22Type").toList, s2), (cat3, ("purl").toList, s3)]
      = some t2 ∧
    parse_ext_ref [(cat3, ("purl").toList, s3)] = some t3 ∧
    (∀ (name pv : Str), pv ≠ [] →
      parse_package ⟨name, some pv, none⟩ = some (some (none, name, pv))) := by
  refine ⟨?_, ?_, ?_, ?_, ?_⟩
  · rw [parse_ext_ref, parse_ext_ref_go,
      parse_ext_ref_step_cpe23 _ _ _ _ hv1 hd1, optionBind_some,
      parse_ext_ref_go, parse_ext_ref_step_cpe22 _ _ _ _ hv2 hd2, optionBind_some,
      parse_ext_ref_go, parse_ext_ref_step_purl _ _ _ _ hv3 hd3, optionBind_some,
      parse_ext_ref_go]
    rfl
  · rw [parse_ext_ref, parse_ext_ref_go,
      parse_ext_ref_step_cpe23 _ _ _ _ hv1 hd1, optionBind_some,
      parse_ext_ref_go, parse_ext_ref_step_purl _ _ _ _ hv3 hd3, optionBind_some,
      parse_ext_ref_go]
    rfl
  · rw [parse_ext_ref, parse_ext_ref_go,
      parse_ext_ref_step_cpe22 _ _ _ _ hv2 hd2, optionBind_some,
      parse_ext_ref_go, parse_ext_ref_step_purl _ _ _ _ hv3 hd3, optionBind_some,
      parse_ext_ref_go]
    rfl
  · rw [parse_ext_ref, parse_ext_ref_go,
      parse_ext_ref_step_purl _ _ _ _ hv3 hd3, optionBind_some, parse_ext_ref_go]
    rfl
  · intro name pv hpv
    simp [parse_package, pyFalsy, hpv]

/-- Witness for `sbom_preference_order`: a package with the nasm CPE23
reference (version `2.15`), a CPE22 reference (version `2.14`) and a PURL
reference (version `2.0`). -/
theorem sbom_preference_order_witness :
    parse_ext_ref [([], ("cpe23Type").toList,
        ("cpe:2.3:a:nasm:netwide_assembler:2.15:*:*:*:*:*:*:*").toList),
      ([], ("cpe22Type").toList, ("cpe:/a:nasm:netwide_assembler:2.14").toList),
      ([], ("purl").toList, ("pkg:npm/nasm/nasm@2.0").toList)]
      = some (some (("nasm").toList), some (("netwide_assembler").toList),
              some (("2.15").toList)) ∧
    parse_ext_ref [([], ("cpe23Type").toList,
        ("cpe:2.3:a:nasm:netwide_assembler:2.15:*:*:*:*:*:*:*").toList),
      ([], ("purl").toList, ("pkg:npm/nasm/nasm@2.0").toList)]
      = some (some (("nasm").toList), some (("netwide_assembler").toList),
              some (("2.15").toList)) ∧
    parse_ext_ref [([], ("cpe22Type").toList,
        ("cpe:/a:nasm:netwide_assembler:2.14").toList),
      ([], ("purl").toList, ("pkg:npm/nasm/nasm@2.0").toList)]
      = some (some (("nasm").toList), some (("netwide_assembler").toList),
              some (("2.14").toList)) ∧
    parse_ext_ref [([], ("purl").toList, ("pkg:npm/nasm/nasm@2.0").toList)]
      = some (none, none, some (("2.0").toList)) ∧
    (∀ (name pv : Str), pv ≠ [] →
      parse_package ⟨name, some pv, none⟩ = some (some (none, name, pv))) :=
  sbom_preference_order [] [] []
    (("cpe:2.3:a:nasm:netwide_assembler:2.15:*:*:*:*:*:*:*").toList)
    (("cpe:/a:nasm:netwide_assembler:2.14").toList)
    (("pkg:npm/nasm/nasm@2.0").toList)
    (some (("nasm").toList), some (("netwide_assembler").toList), some (("2.15").toList))
    (some (("nasm").toList), some (("netwide_assembler").toList), some (("2.14").toList))
    (none, none, some (("2.0").toList))
    (by decide) (by decide) (by decide) (by decide) (by decide) (by decide)

/-- C9: with validation enabled on an XML SBOM document, a failed schema
validation aborts ingestion of that file: `parse_sbom` returns the empty
module list (no package is read), and consequently no identity record is
produced from the file — never a partial result. -/
theorem sbom_validation_failure_empty (lookup : Str → List Str)
    (packages : List SbomPackage) (valid_xml : Bool) (h : valid_xml = false) :
    parse_sbom_modules true true valid_xml packages = some [] ∧
    (∀ ms, parse_sbom_modules true true valid_xml packages = some ms →
      process_modules lookup ms = []) := by
  subst h
  refine ⟨rfl, ?_⟩
  intro ms hms
  have : ms = [] := by
    rw [parse_sbom_modules, if_pos ⟨rfl, rfl, by simp⟩] at hms
    exact (Option.some_injective _ hms).symm
  rw [this]
  rfl

/-- Witness for `sbom_validation_failure_empty`: an invalid XML document with
one package still yields no module and no record. -/
theorem sbom_validation_failure_empty_witness :
    parse_sbom_modules true true false
      [⟨("zstandard").toList, some (("0.18.0").toList), none⟩] = some [] ∧
    (∀ ms, parse_sbom_modules true true false
        [⟨("zstandard").toList, some (("0.18.0").toList), none⟩] = some ms →
      process_modules (fun _ => []) ms = []) :=
  sbom_validation_failure_empty (fun _ => [])
    [⟨("zstandard").toList, some (("0.18.0").toList), none⟩] false rfl

/-- C10: `scan_file` returns the empty mapping and does not raise when the
file does not exist, and likewise when the underlying parse raises
`KeyError`, `FileNotFoundError`, or an XML `ParseError` — those exceptions
are swallowed and an empty result returned. -/
theorem scan_file_swallows_errors (lookup : Str → List Str)
    (parseOutcome : Except PyErr (List SbomModule)) :
    scan_file lookup false parseOutcome = .ok [] ∧
    scan_file lookup true (.error .keyError) = .ok [] ∧
    scan_file lookup true (.error .fileNotFound) = .ok [] ∧
    scan_file lookup true (.error .xmlParseError) = .ok [] :=
  ⟨rfl, rfl, rfl, rfl⟩

/-- C4 counterexample: on the Python PKG-INFO/METADATA parser path, a
fragment whose product name has no match in the index is NOT emitted with the
sentinel vendor `UNKNOWN` — `PythonParser.run_checker` yields nothing at all
(the `vendor_package_pair != []` guard, parsers/python.py line 152, has no
else branch), refuting the claim that a record is still emitted on that
path. -/
theorem python_parser_unknown_counterexample :
    python_run_checker (fun _ => [])
      [("Name: zzz").toList, ("Version: 1.0").toList] [] = [] := by decide

/-- C4 amended: vendor resolution never fabricates nor omits a vendor on the
SBOM ingestion path — with no vendor hint and no index match the emitted
vendor is the literal sentinel `UNKNOWN` — while on the Python
PKG-INFO/METADATA parser path a product with no index match is dropped
entirely (nothing is emitted, with or without an `UNKNOWN` vendor). -/
theorem vendor_resolution_amended (lookup : Str → List Str)
    (product version : Str) (lines : List Str) (filename : Str) :
    (lookup product = [] → get_vendor lookup product = [("UNKNOWN").toList]) ∧
    (lookup (pyLower product) = [] →
      process_modules lookup [(none, product, version)]
        = [⟨("UNKNOWN").toList, pyLower product, version⟩]) ∧
    (∀ p ver, searchFieldLines (("Name: ").toList) (lines.take 3) = some p →
      searchFieldLines (("Version: ").toList) (lines.take 3) = some ver →
      lookup p = [] → python_run_checker lookup lines filename = []) := by
  refine ⟨?_, ?_, ?_⟩
  · intro h
    rw [get_vendor, h]
  · intro h
    simp [process_modules, get_vendor, h]
  · intro p ver hp hver hl
    rw [python_run_checker, hp, hver]
    simp [hl]

/-- Witness for `vendor_resolution_amended`: an empty index, product `zzz`,
and a two-line metadata file. -/
theorem vendor_resolution_amended_witness :
    get_vendor (fun _ => []) (("zzz").toList) = [("UNKNOWN").toList] ∧
    process_modules (fun _ => []) [(none, ("zzz").toList, ("1.0").toList)]
      = [⟨("UNKNOWN").toList, pyLower (("zzz").toList), ("1.0").toList⟩] ∧
    python_run_checker (fun _ => [])
      [("Name: zzz").toList, ("Version: 1.0").toList] [] = [] := by
  have h := vendor_resolution_amended (fun _ => []) (("zzz").toList)
    (("1.0").toList) [("Name: zzz").toList, ("Version: 1.0").toList] []
  exact ⟨h.1 rfl, h.2.1 rfl,
    h.2.2 (("zzz").toList) (("1.0").toList) (by decide) (by decide) rfl⟩

/-- C6 counterexample: during SBOM ingestion no prefix-stripping fallback
applies.  With an index that knows `flask` but not `python-flask`, processing
the module `(None, "python-flask", "1.0")` emits the vendor `UNKNOWN`
(`scan_file` only calls `get_vendor`; `common_prefix_split` is never invoked,
its docstring saying "currently not being used"), whereas resolving the
stripped name `flask` directly yields `palletsprojects` — so ingestion does
not yield the same vendor set as the stripped name. -/
theorem ingestion_no_prefix_fallback_counterexample :
    process_modules
      (fun p => if p = ("flask").toList then [("palletsprojects").toList] else [])
      [(none, ("python-flask").toList, ("1.0").toList)]
      = [⟨("UNKNOWN").toList, ("python-flask").toList, ("1.0").toList⟩] ∧
    get_vendor
      (fun p => if p = ("flask").toList then [("palletsprojects").toList] else [])
      (("flask").toList) = [("palletsprojects").toList] ∧
    [("UNKNOWN").toList] ≠ [("palletsprojects").toList] := by decide

/-- C6 amended: the prefix-stripping/hyphen-splitting fallback lives in the
helper `common_prefix_split`, which SBOM ingestion does not invoke — during
ingestion an unmatched product resolves directly to `UNKNOWN`.  For the
helper itself: when the product carries a known ecosystem prefix (the first
matching one) and the stripped name has a real index hit, the result is
exactly one record per vendor of the stripped name (the same vendor set as
resolving the stripped name directly); otherwise the product is
hyphen-split, each segment re-queried and the hits unioned; and when every
fallback fails the helper returns the empty list — it does not fall back to
`UNKNOWN`. -/
theorem prefix_fallback_amended (lookup : Str → List Str)
    (product version : Str) :
    (lookup (pyLower product) = [] →
      process_modules lookup [(none, product, version)]
        = [⟨("UNKNOWN").toList, pyLower product, version⟩]) ∧
    (∀ pre, commonPrefixes.find? (fun q => q.isPrefixOf product) = some pre →
      isRealHit (get_vendor lookup (product.drop pre.length)) = true →
      common_prefix_split lookup product version
        = (get_vendor lookup (product.drop pre.length)).map
            (fun v => ⟨v, product.drop pre.length, version⟩)) ∧
    (∀ pre, commonPrefixes.find? (fun q => q.isPrefixOf product) = some pre →
      isRealHit (get_vendor lookup (product.drop pre.length)) = false →
      common_prefix_split lookup product version
        = hyphenSplitRecords lookup product version) ∧
    (commonPrefixes.find? (fun q => q.isPrefixOf product) = none →
      common_prefix_split lookup product version
        = hyphenSplitRecords lookup product version) ∧
    ((∀ sp ∈ pySplit '-' product, isRealHit (get_vendor lookup sp) = false) →
      hyphenSplitRecords lookup product version = []) := by
  refine ⟨?_, ?_, ?_, ?_, ?_⟩
  · intro h
    simp [process_modules, get_vendor, h]
  · intro pre hfind hhit
    rw [common_prefix_split, hfind]
    simp [hhit]
  · intro pre hfind hhit
    rw [common_prefix_split, hfind]
    simp [hhit]
  · intro hfind
    rw [common_prefix_split, hfind]
  · intro hall
    rw [hyphenSplitRecords]
    rw [List.flatMap_eq_nil_iff]
    intro sp hsp
    simp [hall sp hsp]

/-- Witness for `prefix_fallback_amended`: the index knows `flask` only;
`python-flask` resolves to `UNKNOWN` during ingestion while the helper
strips `python-` and finds `palletsprojects`; a product with no matching
prefix and no segment hits gives the empty list. -/
theorem prefix_fallback_amended_witness :
    process_modules
      (fun p => if p = ("flask").toList then [("palletsprojects").toList] else [])
      [(none, ("python-flask").toList, ("1.0").toList)]
      = [⟨("UNKNOWN").toList, pyLower (("python-flask").toList), ("1.0").toList⟩] ∧
    common_prefix_split
      (fun p => if p = ("flask").toList then [("palletsprojects").toList] else [])
      (("python-flask").toList) (("1.0").toList)
      = [⟨("palletsprojects").toList, ("flask").toList, ("1.0").toList⟩] ∧
    hyphenSplitRecords (fun _ => []) (("foo-bar").toList) (("1.0").toList) = [] := by
  have h := prefix_fallback_amended
    (fun p => if p = ("flask").toList then [("palletsprojects").toList] else [])
    (("python-flask").toList) (("1.0").toList)
  have h2 := prefix_fallback_amended (fun _ => []) (("foo-bar").toList)
    (("1.0").toList)
  refine ⟨h.1 (by decide), ?_, h2.2.2.2.2 (by decide)⟩
  rw [h.2.1 (("python-").toList) (by decide) (by decide)]
  decide

/-! ### Version non-emptiness lemmas -/

theorem parse_package_version_ne_nil {pkg : SbomPackage} {m : SbomModule}
    (h : parse_package pkg = some (some m)) : m.2.2 ≠ [] := by
  rw [parse_package] at h
  rcases hx : (match pkg.externalreference with
    | some refs => parse_ext_ref refs
    | none => some (none, none, none)) with _ | t
  · rw [hx] at h
    exact absurd h (by simp)
  · rw [hx] at h
    simp only [Option.map_some'] at h
    obtain ⟨vendor, pname, ver⟩ := t
    have h2 := Option.some_injective _ h
    dsimp at h2
    split at h2
    · split at h2
      · exact absurd h2 (by simp)
      · rename_i v hnil
        have := Option.some_injective _ h2
        rw [← this]
        exact hnil
    · exact absurd h2 (by simp)

theorem parse_sbom_go_version_ne_nil {pkgs : List SbomPackage} :
    ∀ {acc mods : List SbomModule}, (∀ m ∈ acc, m.2.2 ≠ []) →
    parse_sbom_go acc pkgs = some mods → ∀ m ∈ mods, m.2.2 ≠ [] := by
  induction pkgs with
  | nil =>
    intro acc mods hacc h
    rw [parse_sbom_go] at h
    rw [← Option.some_injective _ h]
    exact hacc
  | cons pkg rest ih =>
    intro acc mods hacc h
    rw [parse_sbom_go] at h
    rcases hp : parse_package pkg with _ | m?
    · rw [hp] at h
      exact absurd h (by simp)
    · rw [hp] at h
      simp only [Option.map_some', optionBind_some] at h
      refine ih ?_ h
      intro m hm
      rcases List.mem_append.mp hm with hm1 | hm2
      · exact hacc m hm1
      · rcases m? with _ | m0
        · exact absurd hm2 (by simp)
        · have : m = m0 := by
            simpa using hm2
          subst this
          exact parse_package_version_ne_nil hp

theorem process_modules_version {lookup : Str → List Str}
    {modules : List SbomModule} {pi : ProductInfo}
    (h : pi ∈ process_modules lookup modules) :
    ∃ m ∈ modules, pi.version = m.2.2 := by
  rw [process_modules] at h
  obtain ⟨m, hm, hpi⟩ := List.mem_flatMap.mp h
  refine ⟨m, hm, ?_⟩
  rcases m with ⟨mv, mp, mver⟩
  rcases mv with _ | v
  · obtain ⟨w, _, hw⟩ := List.mem_map.mp hpi
    rw [← hw]
  · simp only [List.mem_singleton] at hpi
    rw [hpi]

theorem common_prefix_split_version {lookup : Str → List Str}
    {product version : Str} {pi : ProductInfo}
    (h : pi ∈ common_prefix_split lookup product version) :
    pi.version = version := by
  have hhyph : ∀ q ∈ hyphenSplitRecords lookup product version,
      ProductInfo.version q = version := by
    intro q hq
    rw [hyphenSplitRecords] at hq
    obtain ⟨sp, _, hq2⟩ := List.mem_flatMap.mp hq
    dsimp at hq2
    rcases hhit : isRealHit (get_vendor lookup sp) with _ | _
    · rw [hhit] at hq2
      exact absurd hq2 (by simp)
    · rw [hhit] at hq2
      simp only [if_true] at hq2
      obtain ⟨w, _, hw⟩ := List.mem_map.mp hq2
      rw [← hw]
  rw [common_prefix_split] at h
  rcases hfind : commonPrefixes.find? (fun q => q.isPrefixOf product)
    with _ | pre
  · rw [hfind] at h
    exact hhyph pi h
  · rw [hfind] at h
    dsimp at h
    rcases hhit : isRealHit (get_vendor lookup (product.drop pre.length))
      with _ | _
    · rw [hhit] at h
      simp only [Bool.false_eq_true, if_false] at h
      exact hhyph pi h
    · rw [hhit] at h
      simp only [if_true] at h
      obtain ⟨w, _, hw⟩ := List.mem_map.mp h
      rw [← hw]

theorem resolveVendors_version {lookup : Str → List Str}
    {product version : Str} {pi : ProductInfo}
    (h : pi ∈ resolveVendors lookup product version) : pi.version = version := by
  rw [resolveVendors] at h
  rcases hl : lookup product with _ | ⟨v, vs⟩
  · rw [hl] at h
    rcases hc : common_prefix_split lookup product version with _ | ⟨r, rs⟩
    · rw [hc] at h
      simp only [List.mem_singleton] at h
      rw [h]
    · rw [hc] at h
      have : pi ∈ common_prefix_split lookup product version := by
        rw [hc]; exact h
      exact common_prefix_split_version this
  · rw [hl] at h
    obtain ⟨w, _, hw⟩ := List.mem_map.mp h
    rw [← hw]

theorem resolveVendors_ne_nil (lookup : Str → List Str)
    (product version : Str) : resolveVendors lookup product version ≠ [] := by
  rw [resolveVendors]
  rcases lookup product with _ | ⟨v, vs⟩
  · rcases common_prefix_split lookup product version with _ | ⟨r, rs⟩ <;> simp
  · simp

theorem find_vendor_version {lookup : Str → List Str} {product : Str}
    {version : Option NpmVerVal} {pi : ProductInfo}
    (h : pi ∈ find_vendor lookup product version) :
    ∃ v, version = some (.str v) ∧ v ≠ [] ∧ pi.version = v := by
  rcases version with _ | vv
  · simp [find_vendor] at h
  · rcases vv with v | d
    · by_cases hnil : v = []
      · simp [find_vendor, hnil] at h
      · simp only [find_vendor] at h
        rw [if_neg hnil] at h
        exact ⟨v, rfl, hnil, resolveVendors_version h⟩
    · simp [find_vendor] at h

theorem searchFieldLines_version_ne_nil {fieldColon : Str} {lines : List Str}
    {s : Str} (h : searchFieldLines fieldColon lines = some s) : s ≠ [] := by
  rw [searchFieldLines] at h
  rcases hfm : lines.filterMap (fun l =>
      if fieldColon.isPrefixOf l ∧ l.length > fieldColon.length then
        some (l.drop fieldColon.length)
      else none) with _ | ⟨x, xs⟩
  · rw [hfm] at h
    exact absurd h (by simp)
  · rw [hfm] at h
    have hxs : x = s := by simpa using h
    subst hxs
    have hx : x ∈ lines.filterMap (fun l =>
        if fieldColon.isPrefixOf l ∧ l.length > fieldColon.length then
          some (l.drop fieldColon.length)
        else none) := by
      rw [hfm]
      exact List.mem_cons_self x xs
    obtain ⟨l, hl, hlx⟩ := List.mem_filterMap.mp hx
    by_cases hc : fieldColon.isPrefixOf l ∧ l.length > fieldColon.length
    · rw [if_pos hc] at hlx
      have hx2 := Option.some_injective _ hlx
      intro hnil
      have hlen : l.length - fieldColon.length = 0 := by
        have hl2 := congrArg List.length hx2
        rw [hnil] at hl2
        simpa [List.length_drop] using hl2
      have := hc.2
      omega
    · rw [if_neg hc] at hlx
      exact absurd hlx (by simp)

theorem npm_root_version_ne_nil {lookup : Str → List Str} {data : NpmLockfile}
    {pi : ProductInfo}
    (h : pi ∈ (match data.name, data.version with
      | some n, some v => find_vendor lookup n (some (.str v))
      | _, _ => ([] : List ProductInfo))) : pi.version ≠ [] := by
  rcases hn : data.name with _ | n <;> rw [hn] at h
  · simp at h
  · rcases hv : data.version with _ | v <;> rw [hv] at h
    · simp at h
    · obtain ⟨w, _, hw, hver⟩ := find_vendor_version h
      rw [hver]
      exact hw

/-- C3: every emitted identity record has a non-empty version.  On the SBOM
ingestion path every record produced from a successfully parsed module list
has a non-empty version (`parse_sbom` drops packages with no obtainable
version); every record yielded by the npm lockfile parser — including every
entry of the schema-version-≥2 path — has a non-empty version (fragments
with an empty or unresolvable version are dropped by the vendor resolver);
and every record yielded by the Python metadata parser has a non-empty
version. -/
theorem emitted_versions_nonempty (lookup : Str → List Str) :
    (∀ (validate isXml valid : Bool) (packages : List SbomPackage)
        (mods : List SbomModule),
      parse_sbom_modules validate isXml valid packages = some mods →
      ∀ pi ∈ process_modules lookup mods, pi.version ≠ []) ∧
    (∀ data : NpmLockfile, ∀ pi ∈ (npm_run_checker lookup data).1,
      pi.version ≠ []) ∧
    (∀ (lines : List Str) (filename : Str),
      ∀ r ∈ python_run_checker lookup lines filename, r.1.version ≠ []) := by
  refine ⟨?_, ?_, ?_⟩
  · intro validate isXml valid packages mods h pi hpi
    have hmods : ∀ m ∈ mods, m.2.2 ≠ [] := by
      rw [parse_sbom_modules] at h
      by_cases hc : validate = true ∧ isXml = true ∧ ¬ valid = true
      · rw [if_pos hc] at h
        have : mods = [] := (Option.some_injective _ h).symm
        rw [this]
        intro m hm
        exact absurd hm (by simp)
      · rw [if_neg hc] at h
        exact parse_sbom_go_version_ne_nil (by intro m hm; exact absurd hm (by simp)) h
    obtain ⟨m, hm, hver⟩ := process_modules_version hpi
    rw [hver]
    exact hmods m hm
  · intro data pi hpi
    rw [npm_run_checker] at hpi
    rcases hm : npm_mapping data with e | mapping <;> rw [hm] at hpi <;>
      dsimp at hpi
    · exact npm_root_version_ne_nil hpi
    · rcases List.mem_append.mp hpi with h1 | h2
      · exact npm_root_version_ne_nil h1
      · obtain ⟨pv, _, hf⟩ := List.mem_flatMap.mp h2
        obtain ⟨v, _, hv, hver⟩ := find_vendor_version hf
        rw [hver]
        exact hv
  · intro lines filename r hr
    rw [python_run_checker] at hr
    rcases hn : searchFieldLines (("Name: ").toList) (lines.take 3) with _ | p <;>
      rw [hn] at hr
    · simp at hr
    · rcases hv : searchFieldLines (("Version: ").toList) (lines.take 3)
        with _ | ver <;> rw [hv] at hr
      · simp at hr
      · dsimp at hr
        obtain ⟨w, _, hw⟩ := List.mem_map.mp hr
        have : r.1.version = ver := by rw [← hw]
        rw [this]
        exact searchFieldLines_version_ne_nil hv

/-- Witness for `emitted_versions_nonempty`: concrete SBOM, npm-schema-2 and
metadata inputs. -/
theorem emitted_versions_nonempty_witness :
    (∀ pi ∈ process_modules (fun _ => [])
        [(none, ("zstandard").toList, ("0.18.0").toList)], pi.version ≠ []) ∧
    (∀ pi ∈ (npm_run_checker (fun _ => [])
        ⟨some (("root").toList), some (("1.0").toList), some 2,
         [(("foo").toList, ⟨some (("2.0").toList), [(("bar").toList, ("3.0").toList)]⟩)],
         []⟩).1, pi.version ≠ []) ∧
    (∀ r ∈ python_run_checker (fun _ => [])
        [("Name: zstandard").toList, ("Version: 0.18.0").toList] [],
      r.1.version ≠ []) := by
  have h := emitted_versions_nonempty (fun _ => [])
  refine ⟨?_, h.2.1 _, h.2.2 _ _⟩
  intro pi hpi
  exact h.1 false false false
    [⟨("zstandard").toList, some (("0.18.0").toList), none⟩]
    [(none, ("zstandard").toList, ("0.18.0").toList)] (by decide) pi hpi

theorem find_vendor_witness_mem {lookup : Str → List Str} {p v : Str}
    (hv : v ≠ []) :
    ∃ pi ∈ find_vendor lookup p (some (.str v)), pi.version = v := by
  simp only [find_vendor]
  rw [if_neg hv]
  rcases hr : resolveVendors lookup p v with _ | ⟨pi, rest⟩
  · exact absurd hr (resolveVendors_ne_nil lookup p v)
  · refine ⟨pi, by simp, ?_⟩
    have hmem : pi ∈ resolveVendors lookup p v := by
      rw [hr]
      simp
    exact resolveVendors_version hmem

/-- C7: for an npm lockfile with `lockfileVersion ≥ 2` whose declared
versions are concrete (neither the top-level version nor any package's own
`version` field is the wildcard `*`, the shape of every valid resolved
lockfile), the parser's mapping contains every package's own
`(product, version)` pair and every `requires` entry with a non-`*`
constraint; no mapping entry carries the version `*`; every own version and
every non-`*` requires version (when non-empty) is reported in the output;
and no output record has version `*`. -/
theorem npm_v2_reports (lookup : Str → List Str) (data : NpmLockfile) (n : Nat)
    (hn : data.lockfileVersion = some n) (h2 : 2 ≤ n)
    (hroot : data.version ≠ some (("*").toList))
    (hown : ∀ pd ∈ data.packages, pd.2.version ≠ some (("*").toList)) :
    npm_mapping data = .ok (npm_v2_mapping data.packages) ∧
    (∀ pd ∈ data.packages,
      (get_package_name pd.1, pd.2.version.map NpmVerVal.str)
        ∈ npm_v2_mapping data.packages) ∧
    (∀ pd ∈ data.packages, ∀ nv ∈ pd.2.requires, nv.2 ≠ ("*").toList →
      (get_package_name nv.1, some (NpmVerVal.str nv.2))
        ∈ npm_v2_mapping data.packages) ∧
    (∀ pv ∈ npm_v2_mapping data.packages,
      pv.2 ≠ some (NpmVerVal.str (("*").toList))) ∧
    (∀ pd ∈ data.packages, ∀ v, pd.2.version = some v → v ≠ [] →
      ∃ pi ∈ (npm_run_checker lookup data).1, pi.version = v) ∧
    (∀ pd ∈ data.packages, ∀ nv ∈ pd.2.requires, nv.2 ≠ ("*").toList →
      nv.2 ≠ [] →
      ∃ pi ∈ (npm_run_checker lookup data).1, pi.version = nv.2) ∧
    (∀ pi ∈ (npm_run_checker lookup data).1,
      pi.version ≠ ("*").toList) := by
  have hmap : npm_mapping data = .ok (npm_v2_mapping data.packages) := by
    rw [npm_mapping, hn]
    rw [if_pos ⟨by simp, by simp; omega⟩, if_pos (by simpa using h2)]
  have hout : (npm_run_checker lookup data).1
      = (match data.name, data.version with
        | some n0, some v0 => find_vendor lookup n0 (some (.str v0))
        | _, _ => ([] : List ProductInfo))
        ++ (npm_v2_mapping data.packages).flatMap
            (fun pv => find_vendor lookup pv.1 pv.2) := by
    rw [npm_run_checker, hmap]
  have hmem_own : ∀ pd ∈ data.packages,
      (get_package_name pd.1, pd.2.version.map NpmVerVal.str)
        ∈ npm_v2_mapping data.packages := by
    intro pd hpd
    rw [npm_v2_mapping]
    exact List.mem_flatMap.mpr ⟨pd, hpd, by simp⟩
  have hmem_req : ∀ pd ∈ data.packages, ∀ nv ∈ pd.2.requires,
      nv.2 ≠ ("*").toList →
      (get_package_name nv.1, some (NpmVerVal.str nv.2))
        ∈ npm_v2_mapping data.packages := by
    intro pd hpd nv hnv hstar
    rw [npm_v2_mapping]
    refine List.mem_flatMap.mpr ⟨pd, hpd, List.mem_cons_of_mem _ ?_⟩
    exact List.mem_filterMap.mpr ⟨nv, hnv, by rw [if_neg hstar]⟩
  have hnostar : ∀ pv ∈ npm_v2_mapping data.packages,
      pv.2 ≠ some (NpmVerVal.str (("*").toList)) := by
    intro pv hpv
    rw [npm_v2_mapping] at hpv
    obtain ⟨pd, hpd, hpv2⟩ := List.mem_flatMap.mp hpv
    rcases List.mem_cons.mp hpv2 with h1 | h1
    · rw [h1]
      dsimp
      intro hcon
      rcases hver : pd.2.version with _ | v <;> rw [hver] at hcon
      · exact absurd hcon (by simp)
      · simp only [Option.map_some', Option.some_inj, NpmVerVal.str.injEq] at hcon
        apply hown pd hpd
        rw [hver, hcon]
        rfl
    · obtain ⟨nv, hnv, hif⟩ := List.mem_filterMap.mp h1
      by_cases hstar : nv.2 = ("*").toList
      · rw [if_pos hstar] at hif
        exact absurd hif (by simp)
      · rw [if_neg hstar] at hif
        have hpveq := Option.some_injective _ hif
        rw [← hpveq]
        dsimp
        intro hcon
        simp only [Option.some_inj, NpmVerVal.str.injEq] at hcon
        exact hstar hcon
  have hrep_own : ∀ pd ∈ data.packages, ∀ v, pd.2.version = some v → v ≠ [] →
      ∃ pi ∈ (npm_run_checker lookup data).1, pi.version = v := by
    intro pd hpd v hv hvnil
    obtain ⟨pi, hpi, hver⟩ :=
      @find_vendor_witness_mem lookup (get_package_name pd.1) v hvnil
    refine ⟨pi, ?_, hver⟩
    rw [hout]
    refine List.mem_append_right _ (List.mem_flatMap.mpr
      ⟨(get_package_name pd.1, some (.str v)), ?_, hpi⟩)
    have hm := hmem_own pd hpd
    rw [hv] at hm
    simpa using hm
  have hrep_req : ∀ pd ∈ data.packages, ∀ nv ∈ pd.2.requires,
      nv.2 ≠ ("*").toList → nv.2 ≠ [] →
      ∃ pi ∈ (npm_run_checker lookup data).1, pi.version = nv.2 := by
    intro pd hpd nv hnv hstar hnil
    obtain ⟨pi, hpi, hver⟩ :=
      @find_vendor_witness_mem lookup (get_package_name nv.1) nv.2 hnil
    refine ⟨pi, ?_, hver⟩
    rw [hout]
    exact List.mem_append_right _ (List.mem_flatMap.mpr
      ⟨(get_package_name nv.1, some (.str nv.2)), hmem_req pd hpd nv hnv hstar, hpi⟩)
  have hstar_out : ∀ pi ∈ (npm_run_checker lookup data).1,
      pi.version ≠ ("*").toList := by
    intro pi hpi
    rw [hout] at hpi
    rcases List.mem_append.mp hpi with h1 | h1
    · rcases hn0 : data.name with _ | n0 <;> rw [hn0] at h1
      · simp at h1
      · rcases hv0 : data.version with _ | v0 <;> rw [hv0] at h1
        · simp at h1
        · obtain ⟨w, hw1, hw2, hw3⟩ := find_vendor_version h1
          rw [hw3]
          simp only [Option.some_inj, NpmVerVal.str.injEq] at hw1
          rw [← hw1]
          intro hcon
          exact hroot (by rw [hv0, hcon])
    · obtain ⟨pv, hpv, hf⟩ := List.mem_flatMap.mp h1
      obtain ⟨w, hw1, hw2, hw3⟩ := find_vendor_version hf
      rw [hw3]
      intro hcon
      exact hnostar pv hpv (by rw [hw1, hcon])
  exact ⟨hmap, hmem_own, hmem_req, hnostar, hrep_own, hrep_req, hstar_out⟩

/-- Witness for `npm_v2_reports`: a schema-2 lockfile with one package
`a/foo` at version `2.0` requiring `bar@3.0` and `baz@*`: the own pair and
the concrete requires pair are in the mapping, the wildcard pair is not. -/
theorem npm_v2_reports_witness :
    npm_mapping ⟨some (("root").toList), some (("1.0").toList), some 2,
      [(("a/foo").toList, ⟨some (("2.0").toList),
        [(("bar").toList, ("3.0").toList), (("baz").toList, ("*").toList)]⟩)],
      []⟩
      = Except.ok (npm_v2_mapping
        [(("a/foo").toList, ⟨some (("2.0").toList),
          [(("bar").toList, ("3.0").toList), (("baz").toList, ("*").toList)]⟩)]) ∧
    ((("foo").toList, some (NpmVerVal.str (("2.0").toList)))
      ∈ npm_v2_mapping
        [(("a/foo").toList, ⟨some (("2.0").toList),
          [(("bar").toList, ("3.0").toList), (("baz").toList, ("*").toList)]⟩)]) ∧
    ((("bar").toList, some (NpmVerVal.str (("3.0").toList)))
      ∈ npm_v2_mapping
        [(("a/foo").toList, ⟨some (("2.0").toList),
          [(("bar").toList, ("3.0").toList), (("baz").toList, ("*").toList)]⟩)]) ∧
    ((("baz").toList, some (NpmVerVal.str (("*").toList)))
      ∉ npm_v2_mapping
        [(("a/foo").toList, ⟨some (("2.0").toList),
          [(("bar").toList, ("3.0").toList), (("baz").toList, ("*").toList)]⟩)]) := by
  have h := npm_v2_reports (fun _ => [])
    ⟨some (("root").toList), some (("1.0").toList), some 2,
      [(("a/foo").toList, ⟨some (("2.0").toList),
        [(("bar").toList, ("3.0").toList), (("baz").toList, ("*").toList)]⟩)],
      []⟩ 2 rfl (by omega) (by decide) (by decide)
  refine ⟨h.1, ?_, ?_, ?_⟩
  · exact h.2.1 ((("a/foo").toList, ⟨some (("2.0").toList),
      [(("bar").toList, ("3.0").toList), (("baz").toList, ("*").toList)]⟩))
      (by decide)
  · exact h.2.2.1 ((("a/foo").toList, ⟨some (("2.0").toList),
      [(("bar").toList, ("3.0").toList), (("baz").toList, ("*").toList)]⟩))
      (by decide) ((("bar").toList, ("3.0").toList)) (by decide) (by decide)
  · intro hmem
    exact (h.2.2.2.1 ((("baz").toList, some (NpmVerVal.str (("*").toList)))) hmem) rfl

/-- C8: on a legacy-schema lockfile, a dependency entry given as a plain
version string makes `run_checker` raise `AttributeError` (a `str` has no
`.get`) at the `requires` lookup before anything from the mapping is yielded
(the raised flag is set and the yielded list is empty), while the same entry
given as an object with a `version` field is parsed and reported — the two
forms do NOT yield the same `(product, version)` pair, contradicting the
code's own comment (parsers/javascript.py lines 77-82) and the spec. -/
theorem npm_legacy_flat_string_raises :
    npm_run_checker (fun _ => [])
      ⟨none, none, some 1, [], [(("foo").toList, .str (("1.0.0").toList))]⟩
      = ([], true) ∧
    npm_run_checker (fun _ => [])
      ⟨none, none, some 1, [],
       [(("foo").toList, .obj (some (("1.0.0").toList)) [])]⟩
      = ([⟨("UNKNOWN").toList, ("foo").toList, ("1.0.0").toList⟩], false) := by
  decide

/-- C5 counterexample: the PURL round-trip does not recover the product.
Encoding product `foo`, version `1.0` gives `pkg:npm/foo@1.0`, but
`decode_purl` reports the product (and vendor) as absent — only the version
is parsed (`sbom_manager/__init__.py` lines 349-350 set vendor and product to
`None` outright) — so the decoded product `none` differs from the encoded
product `foo`. -/
theorem purl_roundtrip_product_counterexample :
    js_generate_purl (("foo").toList) (("1.0").toList)
      = some (("pkg:npm/foo@1.0").toList) ∧
    decode_purl (("pkg:npm/foo@1.0").toList)
      = some (none, none, some (("1.0").toList)) ∧
    (none : Option Str) ≠ some (("foo").toList) := by decide

theorem map_self_of_fixed {l : Str} {f : Char → Char}
    (h : ∀ a ∈ l, f a = a) : l.map f = l := by
  induction l with
  | nil => rfl
  | cons c cs ih =>
    rw [List.map_cons, h c (by simp), ih (fun a ha => h a (by simp [ha]))]

/-- C5 amended: PURL decode reports vendor and product absent and returns
only the version carried by the PURL string, and the encode-decode round-trip
holds for the version alone: for every product over the already-lower-cased
alphabet `[a-z0-9._-]` and non-empty version over `[A-Za-z0-9.+-]`, decoding
the PURL produced by the npm encoder recovers the version (while the product
is reported absent). -/
theorem purl_roundtrip_version (product version : Str)
    (hpc : ∀ c ∈ product, purlProductChar c = true)
    (hpl : ∀ c ∈ product, pyLowerChar c = c)
    (hp0 : product ≠ [])
    (hvc : ∀ c ∈ version, purlVersionChar c = true)
    (hv0 : version ≠ []) :
    js_generate_purl product version
      = some (base_generate_purl (("npm").toList) product version) ∧
    decode_purl (base_generate_purl (("npm").toList) product version)
      = some (none, none, some version) := by
  have hpColon : ':' ∉ product := fun h => absurd (hpc ':' h) (by decide)
  have hpAt : '@' ∉ product := fun h => absurd (hpc '@' h) (by decide)
  have hpHash : '#' ∉ product := fun h => absurd (hpc '#' h) (by decide)
  have hpQm : '?' ∉ product := fun h => absurd (hpc '?' h) (by decide)
  have hvColon : ':' ∉ version := fun h => absurd (hvc ':' h) (by decide)
  have hvAt : '@' ∉ version := fun h => absurd (hvc '@' h) (by decide)
  have hvHash : '#' ∉ version := fun h => absurd (hvc '#' h) (by decide)
  have hvQm : '?' ∉ version := fun h => absurd (hvc '?' h) (by decide)
  have hfil : product.filter purlProductChar = product :=
    List.filter_eq_self.mpr hpc
  have hmap : (product.filter purlProductChar).map pyLowerChar = product := by
    rw [hfil]
    exact map_self_of_fixed hpl
  have hvfil : version.filter purlVersionChar = version :=
    List.filter_eq_self.mpr hvc
  have henc : js_generate_purl product version
      = some (base_generate_purl (("npm").toList) product version) := by
    rw [js_generate_purl, hmap, hvfil, if_neg (not_or.mpr ⟨hp0, hv0⟩)]
  refine ⟨henc, ?_⟩
  have hrest : base_generate_purl (("npm").toList) product version
      = ['p', 'k', 'g'] ++ ':' ::
        ('n' :: 'p' :: 'm' :: '/' :: (product ++ '@' :: version)) := by
    simp [base_generate_purl]
  have hrestColon : ':' ∉ ('n' :: 'p' :: 'm' :: '/' :: (product ++ '@' :: version)) := by
    simp [List.mem_append]
    exact ⟨hpColon, hvColon⟩
  have hsplitc : pySplit ':' (base_generate_purl (("npm").toList) product version)
      = [['p', 'k', 'g'], 'n' :: 'p' :: 'm' :: '/' :: (product ++ '@' :: version)] := by
    rw [hrest, pySplit_append _ (by decide), pySplit_of_not_mem hrestColon]
  have hfirst : splitAtFirst ':' (base_generate_purl (("npm").toList) product version)
      = some (['p', 'k', 'g'],
          'n' :: 'p' :: 'm' :: '/' :: (product ++ '@' :: version)) := by
    rw [splitAtFirst, hsplitc]
    simp
  have hnoHash : '#' ∉ ('n' :: 'p' :: 'm' :: '/' :: (product ++ '@' :: version)) := by
    simp [List.mem_append]
    exact ⟨hpHash, hvHash⟩
  have hnoQm : '?' ∉ ('n' :: 'p' :: 'm' :: '/' :: (product ++ '@' :: version)) := by
    simp [List.mem_append]
    exact ⟨hpQm, hvQm⟩
  have hbh : beforeFirst '#' ('n' :: 'p' :: 'm' :: '/' :: (product ++ '@' :: version))
      = 'n' :: 'p' :: 'm' :: '/' :: (product ++ '@' :: version) := by
    rw [beforeFirst, pySplit_of_not_mem hnoHash]
    rfl
  have hbq : beforeFirst '?' ('n' :: 'p' :: 'm' :: '/' :: (product ++ '@' :: version))
      = 'n' :: 'p' :: 'm' :: '/' :: (product ++ '@' :: version) := by
    rw [beforeFirst, pySplit_of_not_mem hnoQm]
    rfl
  have hshape : ('n' :: 'p' :: 'm' :: '/' :: (product ++ '@' :: version))
      = (['n', 'p', 'm', '/'] ++ product) ++ '@' :: version := by
    simp
  have hAtA : '@' ∉ (['n', 'p', 'm', '/'] ++ product) := by
    simp [List.mem_append]
    exact hpAt
  have hlast : afterLast '@' ('n' :: 'p' :: 'm' :: '/' :: (product ++ '@' :: version))
      = some version := by
    rw [afterLast, hshape, pySplit_append _ hAtA, pySplit_of_not_mem hvAt]
    rfl
  have hver : purlFromStringVersion (base_generate_purl (("npm").toList) product version)
      = some (some version) := by
    rw [purlFromStringVersion, hfirst]
    dsimp only
    rw [if_pos ⟨rfl, rfl⟩, hbh, hbq, hlast]
  rw [decode_purl, hver]
  simp only [Option.map_some']
  rw [show orNone version = some version from by rw [orNone, if_neg hv0]]

/-- Witness for `purl_roundtrip_version` at product `foo`, version `1.0`. -/
theorem purl_roundtrip_version_witness :
    js_generate_purl (("foo").toList) (("1.0").toList)
      = some (base_generate_purl (("npm").toList) (("foo").toList)
          (("1.0").toList)) ∧
    decode_purl (base_generate_purl (("npm").toList) (("foo").toList)
        (("1.0").toList))
      = some (none, none, some (("1.0").toList)) :=
  purl_roundtrip_version (("foo").toList) (("1.0").toList)
    (by decide) (by decide) (by decide) (by decide) (by decide)
